import Mathlib

/-!
Shallow embedding of src/toy.cpp: the Kaleidoscope-style lexer (gettok) and
the recursive-descent / precedence-climbing parser, together with theorems
settling the specification claims.

Modelling conventions, matching the source:
* The C global state (LastChar, IdentifierStr, NumberVal, CurTok,
  BinopPrecedence) is threaded explicitly through one state record KState.
* stdin is a list of characters; getchar() past the end is EOF, modelled by
  lastChar = none (EOF is sticky: no branch of gettok reads again after it).
* The C type double (NumberVal) is modelled as an exact rational; strtod is
  modelled exactly on the strings the lexer can hand it ([0-9.]+), parsing
  the longest valid prefix, with no floating-point rounding.
* std::map of char to int is modelled as a key-sorted association list, and
  its index operator faithfully inserts a default entry 0 for an absent key.
* The recursive parse functions take a fuel argument and return the C error
  signal nullptr as an Except.error carrying the LogError message, so that
  every definition is structurally recursive and kernel-computable.
-/

deriving instance DecidableEq for Except

namespace Kale

/-- C isspace in the C locale, over ASCII input. -/
def isspace (c : Char) : Bool :=
  c = ' ' || c = '\t' || c = '\n' || c = '\x0b' || c = '\x0c' || c = '\r'

/-- C isalpha in the C locale. -/
def isalpha (c : Char) : Bool :=
  ('A' ≤ c && c ≤ 'Z') || ('a' ≤ c && c ≤ 'z')

/-- C isdigit. -/
def isdigit (c : Char) : Bool :=
  '0' ≤ c && c ≤ '9'

/-- C isalnum. -/
def isalnum (c : Char) : Bool :=
  isalpha c || isdigit c

/-- C isascii: code points 0..127. -/
def isascii (c : Char) : Bool :=
  c.toNat ≤ 127

/-- The token codes of enum Token in the source, plus the raw-character case
(the lexer returns the character itself for unknown characters). The payload
globals IdentifierStr and NumberVal live in KState, as in the source. -/
inductive Tok where
  | tok_eof
  | tok_def
  | tok_extern
  | tok_identifier
  | tok_number
  | tok_char (c : Char)
deriving DecidableEq

/-- The whole mutable state of the program: the lexer pending character and
remaining input, the two token-payload globals, the parser lookahead CurTok,
and the BinopPrecedence map. -/
structure KState where
  lastChar : Option Char
  input : List Char
  identifierStr : String
  numberVal : ℚ
  curTok : Tok
  binop : List (Char × Int)
deriving DecidableEq

/-- The whitespace-skipping loop at the top of gettok:
while (isspace(LastChar)) LastChar = getchar(). -/
def skipSpaces (lc : Option Char) (input : List Char) : Option Char × List Char :=
  match lc with
  | none => (none, input)
  | some c =>
    if isspace c then
      match input with
      | [] => (none, [])
      | d :: rest => skipSpaces (some d) rest
    else (some c, input)

/-- The identifier loop: while (isalnum(LastChar = getchar())) IdentifierStr += LastChar.
Returns the accumulated string, the new LastChar and the remaining input. -/
def lexIdentLoop (acc : String) (input : List Char) : String × Option Char × List Char :=
  match input with
  | [] => (acc, none, [])
  | c :: rest => if isalnum c then lexIdentLoop (acc.push c) rest else (acc, some c, rest)

/-- The number loop: do { NumStr += LastChar; LastChar = getchar(); }
while (isdigit(LastChar) or LastChar = dot). -/
def lexNumLoop (acc : String) (c : Char) (input : List Char) : String × Option Char × List Char :=
  let acc2 := acc.push c
  match input with
  | [] => (acc2, none, [])
  | d :: rest => if isdigit d || d = '.' then lexNumLoop acc2 d rest else (acc2, some d, rest)

/-- The comment loop: do LastChar = getchar();
while (LastChar not EOF, newline or carriage return). -/
def dropComment (input : List Char) : Option Char × List Char :=
  match input with
  | [] => (none, [])
  | c :: rest => if c ≠ '\n' && c ≠ '\r' then dropComment rest else (some c, rest)

/-- Digit string to natural number (most significant first). -/
def natOfDigits (l : List Char) : Nat :=
  l.foldl (fun a c => a * 10 + (c.toNat - 48)) 0

/-- C strtod restricted to the strings the lexer builds (matching [0-9.]+):
it converts the longest prefix of the form digits, optional dot, digits, and
a string with no leading digits and no leading dot-digits converts to 0.
Modelled with exact rationals in place of IEEE doubles. -/
def strtodQ (s : String) : ℚ :=
  let cs := s.data
  let ip := cs.takeWhile isdigit
  let rest := cs.dropWhile isdigit
  match rest with
  | '.' :: rest2 =>
    let fp := rest2.takeWhile isdigit
    (natOfDigits ip : ℚ) + (natOfDigits fp : ℚ) / (10 : ℚ) ^ fp.length
  | _ => (natOfDigits ip : ℚ)

/-- gettok, with fuel for the self-call after a comment that ends in a
newline. A fuel of input.length + 1 always suffices (theorem gettokF_congr
below); gettok wraps this with that fuel. -/
def gettokF : Nat → KState → Tok × KState
  | 0, s => (Tok.tok_eof, s)
  | n + 1, s =>
    match skipSpaces s.lastChar s.input with
    | (none, rest) => (Tok.tok_eof, { s with lastChar := none, input := rest })
    | (some c, rest) =>
      if isalpha c then
        let r := lexIdentLoop (String.singleton c) rest
        let s2 : KState := { s with identifierStr := r.1, lastChar := r.2.1, input := r.2.2 }
        if r.1 = "def" then (Tok.tok_def, s2)
        else if r.1 = "extern" then (Tok.tok_extern, s2)
        else (Tok.tok_identifier, s2)
      else if isdigit c || c = '.' then
        let r := lexNumLoop "" c rest
        (Tok.tok_number, { s with numberVal := strtodQ r.1, lastChar := r.2.1, input := r.2.2 })
      else if c = '#' then
        match dropComment rest with
        | (none, rest2) => (Tok.tok_eof, { s with lastChar := none, input := rest2 })
        | (some c2, rest2) => gettokF n { s with lastChar := some c2, input := rest2 }
      else
        match rest with
        | [] => (Tok.tok_char c, { s with lastChar := none, input := [] })
        | d :: rest2 => (Tok.tok_char c, { s with lastChar := some d, input := rest2 })

/-- gettok - return the next token, threading the state. -/
def gettok (s : KState) : Tok × KState :=
  gettokF (s.input.length + 1) s

/-- getNextToken: CurTok = gettok(). -/
def getNextToken (s : KState) : KState :=
  let r := gettok s
  { r.2 with curTok := r.1 }

/-- std::map index operator on a key-sorted association list: returns the
mapped value, inserting a default-constructed 0 entry when the key is absent
(this is what BinopPrecedence[CurTok] does in GetTokPrecedence). -/
def mapIndex : List (Char × Int) → Char → Int × List (Char × Int)
  | [], k => (0, [(k, 0)])
  | (k2, v) :: rest, k =>
    if k < k2 then (0, (k, 0) :: (k2, v) :: rest)
    else if k = k2 then (v, (k2, v) :: rest)
    else
      let r := mapIndex rest k
      (r.1, (k2, v) :: r.2)

/-- GetTokPrecedence: -1 for non-ascii tokens (all the negative enum codes
and bytes above 127), else the BinopPrecedence entry of the character, with
non-positive entries (in particular the default 0 of an absent key, which
the index operator inserts) reported as -1. -/
def GetTokPrecedence (s : KState) : Int × KState :=
  match s.curTok with
  | Tok.tok_char c =>
    if isascii c then
      let r := mapIndex s.binop c
      let s2 := { s with binop := r.2 }
      if r.1 ≤ 0 then (-1, s2) else (r.1, s2)
    else (-1, s)
  | _ => (-1, s)

/-- ExprAST and its concrete node classes, as one closed sum. The source
spelling NumberExprAst (lowercase st) is kept. -/
inductive ExprAST where
  | NumberExprAst (Val : ℚ)
  | VariableExprAST (Name : String)
  | BinaryExprAST (Op : Char) (LHS RHS : ExprAST)
  | CallExprAST (Callee : String) (Args : List ExprAST)

/-- PrototypeAST: function name and argument names. -/
structure PrototypeAST where
  Name : String
  Args : List String
deriving DecidableEq

/-- FunctionAST: prototype plus body. -/
structure FunctionAST where
  Proto : PrototypeAST
  Body : ExprAST

/-- ParseNumberExpr: builds a NumberExprAst from the NumberVal global and
consumes the token. -/
def ParseNumberExpr (s : KState) : Except String ExprAST × KState :=
  (Except.ok (ExprAST.NumberExprAst s.numberVal), getNextToken s)

mutual

/-- expression ::= primary binoprhs -/
def ParseExpression : Nat → KState → Except String ExprAST × KState
  | 0, s => (Except.error "no fuel", s)
  | n + 1, s =>
    match ParsePrimary n s with
    | (Except.error e, s1) => (Except.error e, s1)
    | (Except.ok lhs, s1) => ParseBinOpRHS n 0 lhs s1

/-- primary ::= identifierexpr | numberexpr | parenexpr -/
def ParsePrimary : Nat → KState → Except String ExprAST × KState
  | 0, s => (Except.error "no fuel", s)
  | n + 1, s =>
    match s.curTok with
    | Tok.tok_identifier => ParseIdentifierExpr n s
    | Tok.tok_number => ParseNumberExpr s
    | Tok.tok_char c =>
      if c = '(' then ParseParenExpr n s
      else (Except.error "unknown token when expecting an expression", s)
    | _ => (Except.error "unknown token when expecting an expression", s)

/-- parenexpr ::= ( expression ) -/
def ParseParenExpr : Nat → KState → Except String ExprAST × KState
  | 0, s => (Except.error "no fuel", s)
  | n + 1, s =>
    let s1 := getNextToken s
    match ParseExpression n s1 with
    | (Except.error e, s2) => (Except.error e, s2)
    | (Except.ok v, s2) =>
      if s2.curTok ≠ Tok.tok_char ')' then (Except.error "expected ')'", s2)
      else (Except.ok v, getNextToken s2)

/-- identifierexpr ::= identifier | identifier ( expression* ) -/
def ParseIdentifierExpr : Nat → KState → Except String ExprAST × KState
  | 0, s => (Except.error "no fuel", s)
  | n + 1, s =>
    let idName := s.identifierStr
    let s1 := getNextToken s
    if s1.curTok ≠ Tok.tok_char '(' then (Except.ok (ExprAST.VariableExprAST idName), s1)
    else
      let s2 := getNextToken s1
      if s2.curTok = Tok.tok_char ')' then
        (Except.ok (ExprAST.CallExprAST idName []), getNextToken s2)
      else
        match parseCallArgs n s2 [] with
        | (Except.error e, s3) => (Except.error e, s3)
        | (Except.ok args, s3) => (Except.ok (ExprAST.CallExprAST idName args), getNextToken s3)

/-- The while(1) argument loop inside ParseIdentifierExpr, entered with
CurTok not ) : parse an expression, stop at ) , demand a comma otherwise. -/
def parseCallArgs : Nat → KState → List ExprAST → Except String (List ExprAST) × KState
  | 0, s, _ => (Except.error "no fuel", s)
  | n + 1, s, acc =>
    match ParseExpression n s with
    | (Except.error e, s1) => (Except.error e, s1)
    | (Except.ok arg, s1) =>
      if s1.curTok = Tok.tok_char ')' then (Except.ok (acc ++ [arg]), s1)
      else if s1.curTok ≠ Tok.tok_char ',' then
        (Except.error "Expected ')' or ',' in argument list", s1)
      else parseCallArgs n (getNextToken s1) (acc ++ [arg])

/-- binoprhs: the precedence-climbing loop, written as tail recursion on the
fuel; the last match arm is unreachable in runs started from ParseExpression
(a positive precedence forces CurTok to be an ascii character token). -/
def ParseBinOpRHS : Nat → Int → ExprAST → KState → Except String ExprAST × KState
  | 0, _, _, s => (Except.error "no fuel", s)
  | n + 1, exprPrec, lhs, s =>
    let r := GetTokPrecedence s
    if r.1 < exprPrec then (Except.ok lhs, r.2)
    else
      match r.2.curTok with
      | Tok.tok_char binOp =>
        let s1 := getNextToken r.2
        match ParsePrimary n s1 with
        | (Except.error e, s2) => (Except.error e, s2)
        | (Except.ok rhs1, s2) =>
          let r2 := GetTokPrecedence s2
          if r.1 < r2.1 then
            match ParseBinOpRHS n (r.1 + 1) rhs1 r2.2 with
            | (Except.error e, s4) => (Except.error e, s4)
            | (Except.ok rhs2, s4) =>
              ParseBinOpRHS n exprPrec (ExprAST.BinaryExprAST binOp lhs rhs2) s4
          else ParseBinOpRHS n exprPrec (ExprAST.BinaryExprAST binOp lhs rhs1) r2.2
      | _ => (Except.error "binop token is not a character", r.2)

end

/-- The argument-name loop of ParsePrototype:
while (getNextToken() is tok_identifier) ArgNames.push_back(IdentifierStr);
none signals fuel exhaustion (one fuel unit per parameter name suffices). -/
def protoArgsLoop : Nat → KState → List String → Option (List String × KState)
  | 0, _, _ => none
  | n + 1, s, acc =>
    let s1 := getNextToken s
    if s1.curTok = Tok.tok_identifier then protoArgsLoop n s1 (acc ++ [s1.identifierStr])
    else some (acc, s1)

/-- prototype ::= id ( id* ) -/
def ParsePrototype (fuel : Nat) (s : KState) : Except String PrototypeAST × KState :=
  if s.curTok ≠ Tok.tok_identifier then
    (Except.error "Expected function name in prototype", s)
  else
    let fnName := s.identifierStr
    let s1 := getNextToken s
    if s1.curTok ≠ Tok.tok_char '(' then (Except.error "Expected '(' in prototype", s1)
    else
      match protoArgsLoop fuel s1 [] with
      | none => (Except.error "no fuel", s1)
      | some (args, s2) =>
        if s2.curTok ≠ Tok.tok_char ')' then (Except.error "Expected ')' in prototype", s2)
        else (Except.ok ⟨fnName, args⟩, getNextToken s2)

/-- definition ::= def prototype expression -/
def ParseDefinition (fuel : Nat) (s : KState) : Except String FunctionAST × KState :=
  let s1 := getNextToken s
  match ParsePrototype fuel s1 with
  | (Except.error e, s2) => (Except.error e, s2)
  | (Except.ok proto, s2) =>
    match ParseExpression fuel s2 with
    | (Except.ok body, s3) => (Except.ok ⟨proto, body⟩, s3)
    | (Except.error e, s3) => (Except.error e, s3)

/-- external ::= extern prototype -/
def ParseExtern (fuel : Nat) (s : KState) : Except String PrototypeAST × KState :=
  ParsePrototype fuel (getNextToken s)

/-- toplevelexpr ::= expression, wrapped in an anonymous prototype. -/
def ParseTopLevelExpr (fuel : Nat) (s : KState) : Except String FunctionAST × KState :=
  match ParseExpression fuel s with
  | (Except.ok e, s1) => (Except.ok ⟨⟨"", []⟩, e⟩, s1)
  | (Except.error e, s1) => (Except.error e, s1)

/-- The table main() installs before parsing, as the key-sorted map:
the < token at 10, + and - at 20, * at 40. -/
def BinopPrecedence0 : List (Char × Int) :=
  [('*', 40), ('+', 20), ('-', 20), ('<', 10)]

/-- The state right after main(): baseline operator table, LastChar holding
its initial blank, and the first token primed with getNextToken(). CurTok
before priming is the zero-initialized static int, i.e. the NUL character. -/
def mainInit (text : String) : KState :=
  getNextToken
    { lastChar := some ' ', input := text.data, identifierStr := "",
      numberVal := 0, curTok := Tok.tok_char (Char.ofNat 0), binop := BinopPrecedence0 }

/-- The value a read of the table gives for a key: the entry's value, or the
default-constructed 0 when the key is absent. This is the precedence
function the table denotes (the spec: no entry, or a non-positive value,
means not a declared infix operator). -/
def precOf : List (Char × Int) → Char → Int
  | [], _ => 0
  | (k, v) :: rest, c => if c = k then v else precOf rest c

/-- Key-sortedness with unique keys: the representation invariant std::map
maintains. -/
def mapSorted (m : List (Char × Int)) : Prop :=
  List.Pairwise (fun a b => a.1 < b.1) m

instance (m : List (Char × Int)) : Decidable (mapSorted m) := by
  unfold mapSorted
  infer_instance

/-- From state s to state t, the precedence function the table denotes is
unchanged and key-sortedness is preserved. -/
def PrecPres (s t : KState) : Prop :=
  mapSorted s.binop → mapSorted t.binop ∧ ∀ c, precOf t.binop c = precOf s.binop c

/-- The trace of the prototype argument-name loop: from state s, successive
getNextToken calls yield identifier tokens carrying the listed names, and
the first non-identifier token leaves the loop in state s2. -/
inductive ProtoArgs : KState → List String → KState → Prop
  | done (s : KState) : (getNextToken s).curTok ≠ Tok.tok_identifier →
      ProtoArgs s [] (getNextToken s)
  | step (s : KState) (rest : List String) (s2 : KState) :
      (getNextToken s).curTok = Tok.tok_identifier →
      ProtoArgs (getNextToken s) rest s2 →
      ProtoArgs s ((getNextToken s).identifierStr :: rest) s2

/-! Lexer lemmas: termination measure facts, fuel irrelevance for gettokF,
and the frame fact that the lexer never touches the precedence table. -/

theorem skipSpaces_length (lc : Option Char) (input : List Char) :
    (skipSpaces lc input).2.length ≤ input.length := by
  induction input generalizing lc with
  | nil =>
    cases lc with
    | none => simp [skipSpaces]
    | some c =>
      simp only [skipSpaces]
      split <;> simp
  | cons d rest ih =>
    cases lc with
    | none => simp [skipSpaces]
    | some c =>
      simp only [skipSpaces]
      split
      · exact le_trans (ih (some d)) (by simp)
      · simp

theorem dropComment_length (l : List Char) :
    (dropComment l).2.length ≤ l.length := by
  induction l with
  | nil => simp [dropComment]
  | cons c rest ih =>
    simp only [dropComment]
    split
    · exact le_trans ih (by simp)
    · simp

theorem dropComment_some {l : List Char} {c : Char} {r : List Char}
    (h : dropComment l = (some c, r)) : r.length < l.length := by
  induction l with
  | nil => simp [dropComment] at h
  | cons d rest ih =>
    simp only [dropComment] at h
    by_cases hd : d ≠ '\n' && d ≠ '\r'
    · rw [if_pos hd] at h
      exact Nat.lt_trans (ih h) (by simp)
    · rw [if_neg hd] at h
      cases h
      simp

theorem gettokF_congr : ∀ n m (s : KState), s.input.length < n → s.input.length < m →
    gettokF n s = gettokF m s := by
  intro n
  induction n with
  | zero => intro m s hn; omega
  | succ n ih =>
    intro m s hn hm
    cases m with
    | zero => omega
    | succ m =>
      simp only [gettokF]
      have hsplen := skipSpaces_length s.lastChar s.input
      rcases hsp : skipSpaces s.lastChar s.input with ⟨oc, rest⟩
      rw [hsp] at hsplen
      simp only at hsplen
      cases oc with
      | none => rfl
      | some c =>
        by_cases ha : isalpha c = true
        · simp [ha]
        · by_cases hdg : (isdigit c || c = '.') = true
          · simp [ha, hdg]
          · by_cases hh : c = '#'
            · simp only [ha, hdg, hh, if_false, if_true, Bool.false_eq_true]
              rcases hdc : dropComment rest with ⟨oc2, rest2⟩
              cases oc2 with
              | none => rfl
              | some c2 =>
                have hlt := dropComment_some hdc
                exact ih m _ (by simp; omega) (by simp; omega)
            · simp [ha, hdg, hh]

theorem gettok_eq_gettokF {n : Nat} (s : KState) (h : s.input.length < n) :
    gettok s = gettokF n s :=
  gettokF_congr (s.input.length + 1) n s (by omega) h

theorem gettokF_binop : ∀ n (s : KState), ((gettokF n s).2).binop = s.binop := by
  intro n
  induction n with
  | zero => intro s; rfl
  | succ n ih =>
    intro s
    simp only [gettokF]
    rcases hsp : skipSpaces s.lastChar s.input with ⟨oc, rest⟩
    cases oc with
    | none => rfl
    | some c =>
      by_cases ha : isalpha c = true
      · simp only [ha, if_true]
        split
        · rfl
        · split <;> rfl
      · by_cases hdg : (isdigit c || c = '.') = true
        · simp [ha, hdg]
        · by_cases hh : c = '#'
          · simp only [ha, hdg, hh, if_false, if_true, Bool.false_eq_true]
            rcases hdc : dropComment rest with ⟨oc2, rest2⟩
            cases oc2 with
            | none => rfl
            | some c2 => exact ih _
          · simp only [ha, hdg, hh, if_false, Bool.false_eq_true]
            rcases rest with _ | ⟨d, rest2⟩ <;> rfl

theorem gettok_binop (s : KState) : ((gettok s).2).binop = s.binop :=
  gettokF_binop _ s

theorem getNextToken_binop (s : KState) : (getNextToken s).binop = s.binop :=
  gettok_binop s

theorem dropComment_no_newline {l : List Char} (h : ∀ c ∈ l, c ≠ '\n' ∧ c ≠ '\r') :
    dropComment l = (none, []) := by
  induction l with
  | nil => rfl
  | cons c rest ih =>
    have hc := h c (by simp)
    simp only [dropComment]
    rw [if_pos (by simp [hc.1, hc.2])]
    exact ih (fun d hd => h d (by simp [hd]))

theorem dropComment_split {pre : List Char} {nl : Char} {rest : List Char}
    (hpre : ∀ c ∈ pre, c ≠ '\n' ∧ c ≠ '\r') (hnl : nl = '\n' ∨ nl = '\r') :
    dropComment (pre ++ nl :: rest) = (some nl, rest) := by
  induction pre with
  | nil =>
    simp only [List.nil_append, dropComment]
    rcases hnl with h | h <;> simp [h]
  | cons c pre2 ih =>
    have hc := hpre c (by simp)
    simp only [List.cons_append, dropComment]
    rw [if_pos (by simp [hc.1, hc.2])]
    exact ih (fun d hd => hpre d (by simp [hd]))

theorem isalpha_not_space {c : Char} (h : isalpha c = true) : isspace c = false := by
  by_contra hs
  rw [Bool.not_eq_false] at hs
  simp only [isspace, Bool.or_eq_true, decide_eq_true_eq] at hs
  rcases hs with ((((h1 | h1) | h1) | h1) | h1) | h1 <;> subst h1 <;>
    exact absurd h (by decide)

theorem skipSpaces_nospace {c : Char} (h : isspace c = false) (l : List Char) :
    skipSpaces (some c) l = (some c, l) := by
  unfold skipSpaces
  simp [h]

/-- C10: encountering a # with the input exhausted before any end-of-line
character makes gettok return the end-of-input token; in every other case
the # discards the characters through the end of the line and the call
continues as gettok of the remaining input. -/
theorem C10_comment_to_eof_or_next_token (s : KState) (hc : s.lastChar = some '#') :
    ((∀ c ∈ s.input, c ≠ '\n' ∧ c ≠ '\r') →
      gettok s = (Tok.tok_eof, { s with lastChar := none, input := [] })) ∧
    (∀ pre nl rest, s.input = pre ++ nl :: rest → (∀ c ∈ pre, c ≠ '\n' ∧ c ≠ '\r') →
      (nl = '\n' ∨ nl = '\r') →
      gettok s = gettok { s with lastChar := some nl, input := rest }) := by
  have hs1 : skipSpaces s.lastChar s.input = (some '#', s.input) := by
    rw [hc]; exact skipSpaces_nospace (by decide) s.input
  constructor
  · intro h
    have hdc := dropComment_no_newline h
    show gettokF (s.input.length + 1) s = _
    simp [gettokF, hs1, hdc, isalpha, isdigit]
  · intro pre nl rest hsplit hpre hnl
    have hdc : dropComment s.input = (some nl, rest) := by
      rw [hsplit]; exact dropComment_split hpre hnl
    have hlen : rest.length < s.input.length := by
      rw [hsplit]; simp; omega
    have step : gettokF (s.input.length + 1) s
        = gettokF s.input.length { s with lastChar := some nl, input := rest } := by
      simp [gettokF, hs1, hdc, isalpha, isdigit]
    show gettokF (s.input.length + 1) s = _
    rw [step]
    exact gettokF_congr _ _ _ (by simpa using hlen) (by simp)

/-- Witness for C10: a comment running into the end of input yields the
end-of-input token, and a comment closed by a newline continues lexing the
remaining input. -/
theorem C10_comment_to_eof_or_next_token_witness :
    gettok ⟨some '#', ['a', 'b'], "", 0, Tok.tok_eof, []⟩ =
      (Tok.tok_eof, ⟨none, [], "", 0, Tok.tok_eof, []⟩) ∧
    gettok ⟨some '#', ['a', '\n', '1'], "", 0, Tok.tok_eof, []⟩ =
      gettok ⟨some '\n', ['1'], "", 0, Tok.tok_eof, []⟩ := by
  constructor
  · exact (C10_comment_to_eof_or_next_token _ rfl).1 (by decide)
  · exact (C10_comment_to_eof_or_next_token _ rfl).2 ['a'] '\n' ['1'] rfl (by decide)
      (Or.inl rfl)

theorem lexIdentLoop_append (l cs tail : List Char) (d : Char)
    (hcs : ∀ x ∈ cs, isalnum x = true) (hd : isalnum d = false) :
    lexIdentLoop (String.mk l) (cs ++ d :: tail) = (String.mk (l ++ cs), some d, tail) := by
  induction cs generalizing l with
  | nil =>
    simp only [List.nil_append, lexIdentLoop, hd, Bool.false_eq_true, if_false]
    simp
  | cons c cs2 ih =>
    simp only [List.cons_append, lexIdentLoop]
    rw [if_pos (hcs c (by simp))]
    have hp : (String.mk l).push c = String.mk (l ++ [c]) := rfl
    simp only [List.append_eq]
    rw [hp, ih (l ++ [c]) (fun x hx => hcs x (by simp [hx]))]
    simp

/-- C8: positioned at the start of an identifier-shaped string followed by a
non-alphanumeric character, the scanner returns the generic identifier token
with IdentifierStr equal to that exact string, unless the string is def or
extern, which yield their keyword tokens. -/
theorem C8_identifier_text_preserved (s : KState) (c0 d : Char) (cs tail : List Char)
    (hlc : s.lastChar = some c0) (hin : s.input = cs ++ d :: tail)
    (h0 : isalpha c0 = true) (hcs : ∀ x ∈ cs, isalnum x = true) (hd : isalnum d = false) :
    (String.mk (c0 :: cs) ≠ "def" → String.mk (c0 :: cs) ≠ "extern" →
      gettok s = (Tok.tok_identifier,
        { s with identifierStr := String.mk (c0 :: cs), lastChar := some d, input := tail })) ∧
    (String.mk (c0 :: cs) = "def" →
      gettok s = (Tok.tok_def,
        { s with identifierStr := String.mk (c0 :: cs), lastChar := some d, input := tail })) ∧
    (String.mk (c0 :: cs) = "extern" →
      gettok s = (Tok.tok_extern,
        { s with identifierStr := String.mk (c0 :: cs), lastChar := some d, input := tail })) := by
  have hs1 : skipSpaces s.lastChar s.input = (some c0, cs ++ d :: tail) := by
    rw [hlc, hin]; exact skipSpaces_nospace (isalpha_not_space h0) _
  have hid : lexIdentLoop (String.singleton c0) (cs ++ d :: tail)
      = (String.mk (c0 :: cs), some d, tail) := by
    have h := lexIdentLoop_append [c0] cs tail d hcs hd
    simpa using h
  refine ⟨fun h1 h2 => ?_, fun h1 => ?_, fun h1 => ?_⟩
  · show gettokF (s.input.length + 1) s = _
    simp [gettokF, hs1, hid, h0, h1, h2]
  · show gettokF (s.input.length + 1) s = _
    simp [gettokF, hs1, hid, h0, h1]
  · show gettokF (s.input.length + 1) s = _
    have hne : String.mk (c0 :: cs) ≠ "def" := by rw [h1]; decide
    simp [gettokF, hs1, hid, h0, h1, hne]

/-- Witness for C8: the inputs foo(, def and extern (each followed by a
non-alphanumeric character). -/
theorem C8_identifier_text_preserved_witness :
    gettok ⟨some 'f', ['o', 'o', '('], "", 0, Tok.tok_eof, []⟩ =
      (Tok.tok_identifier, ⟨some '(', [], "foo", 0, Tok.tok_eof, []⟩) ∧
    gettok ⟨some 'd', ['e', 'f', ' '], "", 0, Tok.tok_eof, []⟩ =
      (Tok.tok_def, ⟨some ' ', [], "def", 0, Tok.tok_eof, []⟩) ∧
    gettok ⟨some 'e', ['x', 't', 'e', 'r', 'n', ' '], "", 0, Tok.tok_eof, []⟩ =
      (Tok.tok_extern, ⟨some ' ', [], "extern", 0, Tok.tok_eof, []⟩) := by
  refine ⟨?_, ?_, ?_⟩
  · exact (C8_identifier_text_preserved _ 'f' '(' ['o', 'o'] [] rfl rfl rfl (by decide)
      rfl).1 (by decide) (by decide)
  · exact (C8_identifier_text_preserved _ 'd' ' ' ['e', 'f'] [] rfl rfl rfl (by decide)
      rfl).2.1 (by decide)
  · exact (C8_identifier_text_preserved _ 'e' ' ' ['x', 't', 'e', 'r', 'n'] [] rfl rfl rfl
      (by decide) rfl).2.2 (by decide)

/-! Precedence-table lemmas: what the std::map index operator does to the
table and to the precedence function it denotes. -/

theorem mapIndex_mem {m : List (Char × Int)} {k : Char} {e : Char × Int}
    (h : e ∈ (mapIndex m k).2) : e ∈ m ∨ e = (k, 0) := by
  induction m with
  | nil =>
    simp only [mapIndex, List.mem_singleton] at h
    exact Or.inr h
  | cons a rest ih =>
    rcases a with ⟨k2, v⟩
    simp only [mapIndex] at h
    by_cases h1 : k < k2
    · rw [if_pos h1] at h
      rcases List.mem_cons.mp h with h2 | h2
      · exact Or.inr h2
      · exact Or.inl h2
    · rw [if_neg h1] at h
      by_cases h2 : k = k2
      · rw [if_pos h2] at h
        exact Or.inl h
      · rw [if_neg h2] at h
        rcases List.mem_cons.mp h with h3 | h3
        · exact Or.inl (by simp [h3])
        · rcases ih h3 with h4 | h4
          · exact Or.inl (by simp [h4])
          · exact Or.inr h4

theorem mapIndex_sorted {m : List (Char × Int)} {k : Char} (h : mapSorted m) :
    mapSorted (mapIndex m k).2 := by
  induction m with
  | nil => simp [mapIndex, mapSorted]
  | cons a rest ih =>
    rcases a with ⟨k2, v⟩
    rw [mapSorted, List.pairwise_cons] at h
    rcases h with ⟨hhead, htail⟩
    simp only [mapIndex]
    by_cases h1 : k < k2
    · rw [if_pos h1]
      rw [mapSorted, List.pairwise_cons]
      refine ⟨fun b hb => ?_, List.pairwise_cons.mpr ⟨hhead, htail⟩⟩
      rcases List.mem_cons.mp hb with rfl | hb2
      · exact h1
      · exact lt_trans h1 (hhead b hb2)
    · rw [if_neg h1]
      by_cases h2 : k = k2
      · rw [if_pos h2]
        exact List.pairwise_cons.mpr ⟨hhead, htail⟩
      · rw [if_neg h2]
        have hk2 : k2 < k := lt_of_le_of_ne (not_lt.mp h1) (fun he => h2 he.symm)
        rw [mapSorted, List.pairwise_cons]
        refine ⟨fun b hb => ?_, ih htail⟩
        rcases mapIndex_mem hb with h3 | h3
        · exact hhead b h3
        · rw [h3]; exact hk2

theorem precOf_absent {m : List (Char × Int)} {c : Char} (h : ∀ e ∈ m, e.1 ≠ c) :
    precOf m c = 0 := by
  induction m with
  | nil => rfl
  | cons a rest ih =>
    rcases a with ⟨k2, v⟩
    simp only [precOf]
    rw [if_neg (fun hc => h (k2, v) (by simp) (by simp [hc]))]
    exact ih (fun e he => h e (by simp [he]))

theorem mapIndex_precOf {m : List (Char × Int)} {k : Char} (h : mapSorted m) (c : Char) :
    precOf (mapIndex m k).2 c = precOf m c := by
  induction m with
  | nil =>
    simp only [mapIndex, precOf]
    split <;> rfl
  | cons a rest ih =>
    rcases a with ⟨k2, v⟩
    rw [mapSorted, List.pairwise_cons] at h
    rcases h with ⟨hhead, htail⟩
    simp only [mapIndex]
    by_cases h1 : k < k2
    · rw [if_pos h1]
      simp only [precOf]
      by_cases hc : c = k
      · rw [if_pos hc]
        subst hc
        have habs : precOf ((k2, v) :: rest) c = 0 := by
          refine precOf_absent fun e he => ?_
          rcases List.mem_cons.mp he with rfl | he2
          · exact ne_of_gt h1
          · exact ne_of_gt (lt_trans h1 (hhead e he2))
        simp only [precOf] at habs
        exact habs.symm
      · rw [if_neg hc]
    · rw [if_neg h1]
      by_cases h2 : k = k2
      · rw [if_pos h2]
      · rw [if_neg h2]
        simp only [precOf]
        by_cases hc : c = k2
        · rw [if_pos hc, if_pos hc]
        · rw [if_neg hc, if_neg hc]
          exact ih htail

theorem PrecPres_refl (s : KState) : PrecPres s s :=
  fun hs => ⟨hs, fun _ => rfl⟩

theorem PrecPres_trans {s t u : KState} (h1 : PrecPres s t) (h2 : PrecPres t u) :
    PrecPres s u := by
  intro hs
  rcases h1 hs with ⟨ht, he1⟩
  rcases h2 ht with ⟨hu, he2⟩
  exact ⟨hu, fun c => (he2 c).trans (he1 c)⟩

theorem PrecPres_of_binop_eq {s t : KState} (h : t.binop = s.binop) : PrecPres s t := by
  intro hs
  rw [h]
  exact ⟨hs, fun _ => rfl⟩

theorem PrecPres_getNextToken (s : KState) : PrecPres s (getNextToken s) :=
  PrecPres_of_binop_eq (getNextToken_binop s)

theorem GetTokPrecedence_precPres (s : KState) : PrecPres s (GetTokPrecedence s).2 := by
  intro hs
  unfold GetTokPrecedence
  cases s.curTok
  case tok_char c =>
    simp only
    split_ifs with h1 h2
    · exact ⟨mapIndex_sorted hs, fun c2 => mapIndex_precOf hs c2⟩
    · exact ⟨mapIndex_sorted hs, fun c2 => mapIndex_precOf hs c2⟩
    · exact ⟨hs, fun c2 => rfl⟩
  all_goals exact ⟨hs, fun c2 => rfl⟩

theorem parserPrecPres : ∀ n : Nat,
    (∀ s, PrecPres s (ParseExpression n s).2) ∧
    (∀ s, PrecPres s (ParsePrimary n s).2) ∧
    (∀ s, PrecPres s (ParseParenExpr n s).2) ∧
    (∀ s, PrecPres s (ParseIdentifierExpr n s).2) ∧
    (∀ s acc, PrecPres s (parseCallArgs n s acc).2) ∧
    (∀ p lhs s, PrecPres s (ParseBinOpRHS n p lhs s).2) := by
  intro n
  induction n with
  | zero =>
    exact ⟨fun s => PrecPres_refl s, fun s => PrecPres_refl s, fun s => PrecPres_refl s,
      fun s => PrecPres_refl s, fun s acc => PrecPres_refl s,
      fun p lhs s => PrecPres_refl s⟩
  | succ n ih =>
    obtain ⟨ihE, ihP, ihPar, ihId, ihArgs, ihBin⟩ := ih
    refine ⟨fun s => ?_, fun s => ?_, fun s => ?_, fun s => ?_, fun s acc => ?_,
      fun p lhs s => ?_⟩
    · -- ParseExpression
      simp only [ParseExpression]
      split
      · rename_i e s1 heq
        have h := ihP s; rw [heq] at h; exact h
      · rename_i lhs s1 heq
        have h := ihP s; rw [heq] at h
        exact PrecPres_trans h (ihBin 0 lhs s1)
    · -- ParsePrimary
      simp only [ParsePrimary]
      split
      · exact ihId s
      · exact PrecPres_getNextToken s
      · split
        · exact ihPar s
        · exact PrecPres_refl s
      · exact PrecPres_refl s
    · -- ParseParenExpr
      simp only [ParseParenExpr]
      split
      · rename_i e s2 heq
        have h := ihE (getNextToken s); rw [heq] at h
        exact PrecPres_trans (PrecPres_getNextToken s) h
      · rename_i v s2 heq
        have h := ihE (getNextToken s); rw [heq] at h
        have h1 := PrecPres_trans (PrecPres_getNextToken s) h
        split
        · exact h1
        · exact PrecPres_trans h1 (PrecPres_getNextToken s2)
    · -- ParseIdentifierExpr
      simp only [ParseIdentifierExpr]
      split
      · exact PrecPres_getNextToken s
      · split
        · exact PrecPres_trans (PrecPres_getNextToken s)
            (PrecPres_trans (PrecPres_getNextToken _) (PrecPres_getNextToken _))
        · split
          · rename_i e s3 heq
            have h := ihArgs (getNextToken (getNextToken s)) []; rw [heq] at h
            exact PrecPres_trans (PrecPres_getNextToken s)
              (PrecPres_trans (PrecPres_getNextToken _) h)
          · rename_i args s3 heq
            have h := ihArgs (getNextToken (getNextToken s)) []; rw [heq] at h
            exact PrecPres_trans (PrecPres_getNextToken s)
              (PrecPres_trans (PrecPres_getNextToken _)
                (PrecPres_trans h (PrecPres_getNextToken s3)))
    · -- parseCallArgs
      simp only [parseCallArgs]
      split
      · rename_i e s1 heq
        have h := ihE s; rw [heq] at h; exact h
      · rename_i arg s1 heq
        have h1 : PrecPres s s1 := by have h := ihE s; rw [heq] at h; exact h
        split
        · exact h1
        · split
          · exact h1
          · exact PrecPres_trans h1 (PrecPres_trans (PrecPres_getNextToken s1)
              (ihArgs (getNextToken s1) (acc ++ [arg])))
    · -- ParseBinOpRHS
      simp only [ParseBinOpRHS]
      have hg : PrecPres s (GetTokPrecedence s).2 := GetTokPrecedence_precPres s
      split
      · exact hg
      · split
        · rename_i binOp heq1
          split
          · rename_i e s2 heq2
            have h := ihP (getNextToken (GetTokPrecedence s).2); rw [heq2] at h
            exact PrecPres_trans hg (PrecPres_trans (PrecPres_getNextToken _) h)
          · rename_i rhs1 s2 heq2
            have h2 : PrecPres s s2 := by
              have h := ihP (getNextToken (GetTokPrecedence s).2); rw [heq2] at h
              exact PrecPres_trans hg (PrecPres_trans (PrecPres_getNextToken _) h)
            have hg2 : PrecPres s (GetTokPrecedence s2).2 :=
              PrecPres_trans h2 (GetTokPrecedence_precPres s2)
            split
            · split
              · rename_i e s4 heq3
                have h := ihBin ((GetTokPrecedence s).1 + 1) rhs1 (GetTokPrecedence s2).2
                rw [heq3] at h
                exact PrecPres_trans hg2 h
              · rename_i rhs2 s4 heq3
                have h := ihBin ((GetTokPrecedence s).1 + 1) rhs1 (GetTokPrecedence s2).2
                rw [heq3] at h
                exact PrecPres_trans (PrecPres_trans hg2 h)
                  (ihBin p (ExprAST.BinaryExprAST binOp lhs rhs2) s4)
            · exact PrecPres_trans hg2
                (ihBin p (ExprAST.BinaryExprAST binOp lhs rhs1) (GetTokPrecedence s2).2)
        · exact hg

theorem protoArgsLoop_binop : ∀ (fuel : Nat) (s : KState) (acc args : List String)
    (s2 : KState), protoArgsLoop fuel s acc = some (args, s2) → s2.binop = s.binop := by
  intro fuel
  induction fuel with
  | zero => intro s acc args s2 h; simp [protoArgsLoop] at h
  | succ n ih =>
    intro s acc args s2 h
    simp only [protoArgsLoop] at h
    split at h
    · have hb := ih (getNextToken s) (acc ++ [(getNextToken s).identifierStr]) args s2 h
      rw [hb, getNextToken_binop]
    · simp only [Option.some.injEq, Prod.mk.injEq] at h
      rw [← h.2, getNextToken_binop]

theorem ParsePrototype_binop (fuel : Nat) (s : KState) :
    ((ParsePrototype fuel s).2).binop = s.binop := by
  simp only [ParsePrototype]
  split
  · rfl
  · split
    · exact getNextToken_binop s
    · split
      · exact getNextToken_binop s
      · rename_i args s2 heq
        have hb : s2.binop = (getNextToken s).binop :=
          protoArgsLoop_binop _ _ _ _ _ heq
        split
        · rw [hb, getNextToken_binop]
        · rw [getNextToken_binop, hb, getNextToken_binop]

theorem ParseDefinition_precPres (fuel : Nat) (s : KState) :
    PrecPres s (ParseDefinition fuel s).2 := by
  simp only [ParseDefinition]
  split
  · rename_i e s2 heq
    have hb : s2.binop = (getNextToken s).binop := by
      have h := ParsePrototype_binop fuel (getNextToken s); rw [heq] at h; exact h
    exact PrecPres_of_binop_eq (by rw [hb, getNextToken_binop])
  · rename_i proto s2 heq
    have hb : s2.binop = (getNextToken s).binop := by
      have h := ParsePrototype_binop fuel (getNextToken s); rw [heq] at h; exact h
    have h1 : PrecPres s s2 := PrecPres_of_binop_eq (by rw [hb, getNextToken_binop])
    split
    · rename_i body s3 heq2
      have h := (parserPrecPres fuel).1 s2; rw [heq2] at h
      exact PrecPres_trans h1 h
    · rename_i e s3 heq2
      have h := (parserPrecPres fuel).1 s2; rw [heq2] at h
      exact PrecPres_trans h1 h

theorem ParseExtern_precPres (fuel : Nat) (s : KState) :
    PrecPres s (ParseExtern fuel s).2 := by
  have hb := ParsePrototype_binop fuel (getNextToken s)
  exact PrecPres_of_binop_eq (by
    show ((ParsePrototype fuel (getNextToken s)).2).binop = s.binop
    rw [hb, getNextToken_binop])

theorem ParseTopLevelExpr_precPres (fuel : Nat) (s : KState) :
    PrecPres s (ParseTopLevelExpr fuel s).2 := by
  simp only [ParseTopLevelExpr]
  split
  · rename_i e s1 heq
    have h := (parserPrecPres fuel).1 s; rw [heq] at h; exact h
  · rename_i e s1 heq
    have h := (parserPrecPres fuel).1 s; rw [heq] at h; exact h

/-- C7 counterexample: the claim that the table object is never modified is
false. Parsing the spec's own example (1 + 2) * 3 from the baseline table
ends with a different table: the precedence lookup that ParseBinOpRHS did on
the ) token went through the std::map index operator, which inserted the
default entry mapping ) to 0. -/
theorem C7_counterexample :
    ((ParseExpression 32 (mainInit "(1 + 2) * 3")).2).binop
      ≠ (mainInit "(1 + 2) * 3").binop := by
  decide

/-- C7 amended: no parse operation changes the PRECEDENCE FUNCTION the table
denotes (entry value, with absence and non-positive values meaning not an
operator), and each keeps the table key-sorted; the table object itself can
gain default 0 entries for undeclared ascii tokens that a lookup touches
(see the counterexample), but no existing entry's value ever changes and no
operator is added to or removed from the induced mapping. -/
theorem C7_precedence_function_read_only (n : Nat) (s : KState)
    (hs : mapSorted s.binop) :
    (∀ c, precOf ((GetTokPrecedence s).2).binop c = precOf s.binop c) ∧
    (∀ c, precOf ((ParseExpression n s).2).binop c = precOf s.binop c) ∧
    (∀ c, precOf ((ParsePrimary n s).2).binop c = precOf s.binop c) ∧
    (∀ c, precOf ((ParseParenExpr n s).2).binop c = precOf s.binop c) ∧
    (∀ c, precOf ((ParseIdentifierExpr n s).2).binop c = precOf s.binop c) ∧
    (∀ acc c, precOf ((parseCallArgs n s acc).2).binop c = precOf s.binop c) ∧
    (∀ p lhs c, precOf ((ParseBinOpRHS n p lhs s).2).binop c = precOf s.binop c) ∧
    (∀ c, precOf ((ParsePrototype n s).2).binop c = precOf s.binop c) ∧
    (∀ c, precOf ((ParseDefinition n s).2).binop c = precOf s.binop c) ∧
    (∀ c, precOf ((ParseExtern n s).2).binop c = precOf s.binop c) ∧
    (∀ c, precOf ((ParseTopLevelExpr n s).2).binop c = precOf s.binop c) := by
  obtain ⟨hE, hP, hPar, hId, hArgs, hBin⟩ := parserPrecPres n
  refine ⟨fun c => (GetTokPrecedence_precPres s hs).2 c,
    fun c => (hE s hs).2 c,
    fun c => (hP s hs).2 c,
    fun c => (hPar s hs).2 c,
    fun c => (hId s hs).2 c,
    fun acc c => (hArgs s acc hs).2 c,
    fun p lhs c => (hBin p lhs s hs).2 c,
    fun c => by rw [ParsePrototype_binop],
    fun c => (ParseDefinition_precPres n s hs).2 c,
    fun c => (ParseExtern_precPres n s hs).2 c,
    fun c => (ParseTopLevelExpr_precPres n s hs).2 c⟩

/-- Witness for the amended C7: run on the counterexample input, the
precedence function is unchanged at the * key and at the inserted ) key. -/
theorem C7_precedence_function_read_only_witness :
    precOf ((ParseExpression 32 (mainInit "(1 + 2) * 3")).2).binop '*'
        = precOf (mainInit "(1 + 2) * 3").binop '*' ∧
    precOf ((ParseExpression 32 (mainInit "(1 + 2) * 3")).2).binop ')'
        = precOf (mainInit "(1 + 2) * 3").binop ')' := by
  constructor
  · exact (C7_precedence_function_read_only 32 (mainInit "(1 + 2) * 3")
      (by decide)).2.1 '*'
  · exact (C7_precedence_function_read_only 32 (mainInit "(1 + 2) * 3")
      (by decide)).2.1 ')'

/-- C1: with the baseline table, parsing 1 + 2 * 3 as an expression yields
the + node with 1 on the left and the * node of 2 and 3 on the right: the
strictly-higher-precedence * nests inside the right-hand side of +. -/
theorem C1_higher_precedence_nests_right :
    (ParseExpression 32 (mainInit "1 + 2 * 3")).1 =
      Except.ok (ExprAST.BinaryExprAST '+' (ExprAST.NumberExprAst 1)
        (ExprAST.BinaryExprAST '*' (ExprAST.NumberExprAst 2)
          (ExprAST.NumberExprAst 3))) := by
  rfl

/-- C2: with the baseline table, parsing 1 - 2 - 3 as an expression yields
the left-nested tree (1 - 2) - 3: equal-precedence operators associate to
the left, because the recursive right-hand-side absorption only runs at
minimum precedence one greater than the current operator's. -/
theorem C2_equal_precedence_left_assoc :
    (ParseExpression 32 (mainInit "1 - 2 - 3")).1 =
      Except.ok (ExprAST.BinaryExprAST '-'
        (ExprAST.BinaryExprAST '-' (ExprAST.NumberExprAst 1) (ExprAST.NumberExprAst 2))
        (ExprAST.NumberExprAst 3)) := by
  rfl

/-- C3: ParseParenExpr consumes the ( token, parses a full expression,
demands the ) token (failing with message expected ')' otherwise), consumes
it, and returns the inner node unchanged, so no grouping node exists and
parsing (1 + 2) * 3 yields the * node over the + node. -/
theorem C3_parens_transparent (n : Nat) (s : KState) (v : ExprAST) (s2 : KState) :
    (ParseExpression n (getNextToken s) = (Except.ok v, s2) →
      s2.curTok = Tok.tok_char ')' →
      ParseParenExpr (n + 1) s = (Except.ok v, getNextToken s2)) ∧
    (ParseExpression n (getNextToken s) = (Except.ok v, s2) →
      s2.curTok ≠ Tok.tok_char ')' →
      ParseParenExpr (n + 1) s = (Except.error "expected ')'", s2)) ∧
    (ParseExpression 32 (mainInit "(1 + 2) * 3")).1 =
      Except.ok (ExprAST.BinaryExprAST '*'
        (ExprAST.BinaryExprAST '+' (ExprAST.NumberExprAst 1) (ExprAST.NumberExprAst 2))
        (ExprAST.NumberExprAst 3)) := by
  refine ⟨fun h1 h2 => ?_, fun h1 h2 => ?_, by rfl⟩
  · simp [ParseParenExpr, h1, h2]
  · simp [ParseParenExpr, h1, h2]

/-- Witness for C3: (1) parses to the bare literal 1, and (1] fails with
the expected ')' message. -/
theorem C3_parens_transparent_witness :
    (ParseParenExpr 17 (mainInit "(1)")).1 = Except.ok (ExprAST.NumberExprAst 1) ∧
    (ParseParenExpr 17 (mainInit "(1]")).1 = Except.error "expected ')'" := by
  constructor
  · rw [(C3_parens_transparent 16 (mainInit "(1)") (ExprAST.NumberExprAst 1)
      (ParseExpression 16 (getNextToken (mainInit "(1)"))).2).1 (by rfl) (by decide)]
  · rw [(C3_parens_transparent 16 (mainInit "(1]") (ExprAST.NumberExprAst 1)
      (ParseExpression 16 (getNextToken (mainInit "(1]"))).2).2.1 (by rfl) (by decide)]

/-- C4: foo(1, 2) parses to a Call with callee foo and the two literal
arguments in textual order, foo() to a Call with no arguments, and an
identifier not followed by ( yields a VariableReference carrying the
identifier's name. -/
theorem C4_calls_and_variable_refs (n : Nat) (s : KState) :
    ((getNextToken s).curTok ≠ Tok.tok_char '(' →
      ParseIdentifierExpr (n + 1) s =
        (Except.ok (ExprAST.VariableExprAST s.identifierStr), getNextToken s)) ∧
    (ParseExpression 32 (mainInit "foo(1, 2)")).1 =
      Except.ok (ExprAST.CallExprAST "foo"
        [ExprAST.NumberExprAst 1, ExprAST.NumberExprAst 2]) ∧
    (ParseExpression 32 (mainInit "foo()")).1 =
      Except.ok (ExprAST.CallExprAST "foo" []) := by
  refine ⟨fun h => ?_, by rfl, by rfl⟩
  simp [ParseIdentifierExpr, h]

/-- Witness for C4: in x + 1, the identifier x not followed by ( becomes a
VariableExprAST named x. -/
theorem C4_calls_and_variable_refs_witness :
    (ParseIdentifierExpr 9 (mainInit "x + 1")).1 =
      Except.ok (ExprAST.VariableExprAST "x") := by
  rw [(C4_calls_and_variable_refs 8 (mainInit "x + 1")).1 (by decide)]
  rfl

/-- C9: whenever the expression parse succeeds, ParseTopLevelExpr returns a
FunctionAST whose prototype has the empty string as name and an empty
parameter list, and whose body is exactly the parsed expression; a bare
expression is never returned. -/
theorem C9_anonymous_wrapper (fuel : Nat) (s : KState) (e : ExprAST) (s1 : KState)
    (h : ParseExpression fuel s = (Except.ok e, s1)) :
    ParseTopLevelExpr fuel s = (Except.ok ⟨⟨"", []⟩, e⟩, s1) := by
  simp [ParseTopLevelExpr, h]

/-- Witness for C9: the bare expression 7 wraps into the anonymous
prototype. -/
theorem C9_anonymous_wrapper_witness :
    ParseTopLevelExpr 8 (mainInit "7") =
      (Except.ok ⟨⟨"", []⟩, ExprAST.NumberExprAst 7⟩,
        (ParseExpression 8 (mainInit "7")).2) :=
  C9_anonymous_wrapper 8 (mainInit "7") (ExprAST.NumberExprAst 7) _ (by rfl)

theorem protoArgsLoop_of_ProtoArgs {s : KState} {args : List String} {s2 : KState}
    (h : ProtoArgs s args s2) :
    ∀ (fuel : Nat) (acc : List String), args.length < fuel →
      protoArgsLoop fuel s acc = some (acc ++ args, s2) := by
  induction h with
  | done s hne =>
    intro fuel acc hf
    cases fuel with
    | zero => omega
    | succ n =>
      simp only [protoArgsLoop]
      rw [if_neg hne]
      simp
  | step s rest s2 hid hrest ih =>
    intro fuel acc hf
    cases fuel with
    | zero => simp at hf
    | succ n =>
      simp only [protoArgsLoop]
      rw [if_pos hid]
      rw [ih n (acc ++ [(getNextToken s).identifierStr]) (by simp at hf; omega)]
      simp

/-- C6 counterexample: the prototype failure messages start with a capital
E in the code. On a non-identifier token ParsePrototype fails with the
message Expected function name in prototype, and not with the lowercase
message the claim states. -/
theorem C6_counterexample :
    (ParsePrototype 4 (mainInit "1")).1 =
        Except.error "Expected function name in prototype" ∧
    (ParsePrototype 4 (mainInit "1")).1 ≠
        Except.error "expected function name in prototype" := by
  exact ⟨by rfl, by decide⟩

/-- C6 amended: ParsePrototype fails with message Expected function name in
prototype when the current token is not an identifier, with message
Expected '(' in prototype when the token after the name is not ( , accepts
zero or more identifier tokens as parameter names (terminated by the first
non-identifier token, no separators), fails with message Expected ')' in
prototype when the terminating token is not ) , and on success consumes the
) and returns a Prototype carrying the name and the parameter names in
order. (The claim's messages, with the capital E the code prints.) -/
theorem C6_prototype_errors_and_result (fuel : Nat) (s : KState) :
    (s.curTok ≠ Tok.tok_identifier →
      ParsePrototype fuel s = (Except.error "Expected function name in prototype", s)) ∧
    (s.curTok = Tok.tok_identifier → (getNextToken s).curTok ≠ Tok.tok_char '(' →
      ParsePrototype fuel s = (Except.error "Expected '(' in prototype", getNextToken s)) ∧
    (∀ args s2, s.curTok = Tok.tok_identifier →
      (getNextToken s).curTok = Tok.tok_char '(' →
      ProtoArgs (getNextToken s) args s2 → args.length < fuel →
      (s2.curTok ≠ Tok.tok_char ')' →
        ParsePrototype fuel s = (Except.error "Expected ')' in prototype", s2)) ∧
      (s2.curTok = Tok.tok_char ')' →
        ParsePrototype fuel s =
          (Except.ok ⟨s.identifierStr, args⟩, getNextToken s2))) := by
  refine ⟨fun h => ?_, fun h1 h2 => ?_,
    fun args s2 h1 h2 hpa hf => ⟨fun h3 => ?_, fun h3 => ?_⟩⟩
  · simp [ParsePrototype, h]
  · simp [ParsePrototype, h1, h2]
  · have hL := protoArgsLoop_of_ProtoArgs hpa fuel [] hf
    simp [ParsePrototype, h1, h2, hL, h3]
  · have hL := protoArgsLoop_of_ProtoArgs hpa fuel [] hf
    simp [ParsePrototype, h1, h2, hL, h3]

/-- Witness for the amended C6: all four outcomes at concrete inputs. -/
theorem C6_prototype_errors_and_result_witness :
    (ParsePrototype 5 (mainInit "1")).1 =
        Except.error "Expected function name in prototype" ∧
    (ParsePrototype 5 (mainInit "foo 1")).1 =
        Except.error "Expected '(' in prototype" ∧
    (ParsePrototype 5 (mainInit "foo(a b")).1 =
        Except.error "Expected ')' in prototype" ∧
    (ParsePrototype 5 (mainInit "foo(a b)")).1 =
        Except.ok ⟨"foo", ["a", "b"]⟩ := by
  refine ⟨?_, ?_, ?_, ?_⟩
  · rw [(C6_prototype_errors_and_result 5 (mainInit "1")).1 (by decide)]
  · rw [(C6_prototype_errors_and_result 5 (mainInit "foo 1")).2.1 (by decide) (by decide)]
  · have hpa : ProtoArgs (getNextToken (mainInit "foo(a b")) ["a", "b"]
        (getNextToken (getNextToken (getNextToken (getNextToken (mainInit "foo(a b"))))) :=
      ProtoArgs.step _ _ _ (by decide)
        (ProtoArgs.step _ _ _ (by decide) (ProtoArgs.done _ (by decide)))
    rw [((C6_prototype_errors_and_result 5 (mainInit "foo(a b")).2.2 ["a", "b"] _
      (by decide) (by decide) hpa (by simp)).1 (by decide)]
  · have hpa : ProtoArgs (getNextToken (mainInit "foo(a b)")) ["a", "b"]
        (getNextToken (getNextToken (getNextToken (getNextToken (mainInit "foo(a b)"))))) :=
      ProtoArgs.step _ _ _ (by decide)
        (ProtoArgs.step _ _ _ (by decide) (ProtoArgs.done _ (by decide)))
    rw [((C6_prototype_errors_and_result 5 (mainInit "foo(a b)")).2.2 ["a", "b"] _
      (by decide) (by decide) hpa (by simp)).2 (by decide)]
    rfl

/-- C5: failure propagation is monadic: in every parsing operation, when a
sub-parse returns the no-result failure signal, the enclosing operation
returns the same failure (message and state) without constructing a node;
failure is a returned value, never an exception or other non-local control
flow (ParsePrototype invokes no sub-parse, so the property is vacuous
there). -/
theorem C5_failure_propagation (n : Nat) (s : KState) (e : String) :
    (∀ s2, ParseExpression n (getNextToken s) = (Except.error e, s2) →
      ParseParenExpr (n + 1) s = (Except.error e, s2)) ∧
    (∀ s2, s.curTok = Tok.tok_char '(' →
      ParseParenExpr n s = (Except.error e, s2) →
      ParsePrimary (n + 1) s = (Except.error e, s2)) ∧
    (∀ s2, s.curTok = Tok.tok_identifier →
      ParseIdentifierExpr n s = (Except.error e, s2) →
      ParsePrimary (n + 1) s = (Except.error e, s2)) ∧
    (∀ s2, ParsePrimary n s = (Except.error e, s2) →
      ParseExpression (n + 1) s = (Except.error e, s2)) ∧
    (∀ acc s1, ParseExpression n s = (Except.error e, s1) →
      parseCallArgs (n + 1) s acc = (Except.error e, s1)) ∧
    (∀ s3, (getNextToken s).curTok = Tok.tok_char '(' →
      (getNextToken (getNextToken s)).curTok ≠ Tok.tok_char ')' →
      parseCallArgs n (getNextToken (getNextToken s)) [] = (Except.error e, s3) →
      ParseIdentifierExpr (n + 1) s = (Except.error e, s3)) ∧
    (∀ p lhs op s2, ¬ (GetTokPrecedence s).1 < p →
      (GetTokPrecedence s).2.curTok = Tok.tok_char op →
      ParsePrimary n (getNextToken (GetTokPrecedence s).2) = (Except.error e, s2) →
      ParseBinOpRHS (n + 1) p lhs s = (Except.error e, s2)) ∧
    (∀ p lhs op rhs1 s2 s4, ¬ (GetTokPrecedence s).1 < p →
      (GetTokPrecedence s).2.curTok = Tok.tok_char op →
      ParsePrimary n (getNextToken (GetTokPrecedence s).2) = (Except.ok rhs1, s2) →
      (GetTokPrecedence s).1 < (GetTokPrecedence s2).1 →
      ParseBinOpRHS n ((GetTokPrecedence s).1 + 1) rhs1 (GetTokPrecedence s2).2
        = (Except.error e, s4) →
      ParseBinOpRHS (n + 1) p lhs s = (Except.error e, s4)) ∧
    (∀ s2, ParsePrototype n (getNextToken s) = (Except.error e, s2) →
      ParseDefinition n s = (Except.error e, s2)) ∧
    (∀ proto s2 s3, ParsePrototype n (getNextToken s) = (Except.ok proto, s2) →
      ParseExpression n s2 = (Except.error e, s3) →
      ParseDefinition n s = (Except.error e, s3)) ∧
    (∀ s2, ParsePrototype n (getNextToken s) = (Except.error e, s2) →
      ParseExtern n s = (Except.error e, s2)) ∧
    (∀ s1, ParseExpression n s = (Except.error e, s1) →
      ParseTopLevelExpr n s = (Except.error e, s1)) := by
  refine ⟨fun s2 h => ?_, fun s2 hc h => ?_, fun s2 hc h => ?_, fun s2 h => ?_,
    fun acc s1 h => ?_, fun s3 h1 h2 h3 => ?_, fun p lhs op s2 h1 h2 h3 => ?_,
    fun p lhs op rhs1 s2 s4 h1 h2 h3 h4 h5 => ?_, fun s2 h => ?_,
    fun proto s2 s3 h1 h2 => ?_, fun s2 h => ?_, fun s1 h => ?_⟩
  · simp [ParseParenExpr, h]
  · simp [ParsePrimary, hc, h]
  · simp [ParsePrimary, hc, h]
  · simp [ParseExpression, h]
  · simp [parseCallArgs, h]
  · simp only [ParseIdentifierExpr]
    rw [if_neg (fun hn => hn h1), if_neg h2, h3]
  · simp only [ParseBinOpRHS]
    rw [if_neg h1]
    split
    · rename_i binOp heq
      simp [h3]
    · rename_i hcontra
      exact absurd h2 (hcontra op)
  · simp only [ParseBinOpRHS]
    rw [if_neg h1]
    split
    · rename_i binOp heq
      simp [h3, h4, h5]
    · rename_i hcontra
      exact absurd h2 (hcontra op)
  · simp [ParseDefinition, h]
  · simp [ParseDefinition, h1, h2]
  · simp [ParseExtern, h]
  · simp [ParseTopLevelExpr, h]

/-- Witness for C5: every propagation conjunct exercised on a concrete
input whose innermost sub-parse fails on the unknown token. -/
theorem C5_failure_propagation_witness :
    (ParseParenExpr 9 (mainInit "($")).1 =
        Except.error "unknown token when expecting an expression" ∧
    (ParsePrimary 9 (mainInit "($")).1 =
        Except.error "unknown token when expecting an expression" ∧
    (ParsePrimary 9 (mainInit "foo($")).1 =
        Except.error "unknown token when expecting an expression" ∧
    (ParseExpression 9 (mainInit "$")).1 =
        Except.error "unknown token when expecting an expression" ∧
    (parseCallArgs 9 (mainInit "$") []).1 =
        Except.error "unknown token when expecting an expression" ∧
    (ParseIdentifierExpr 9 (mainInit "foo($")).1 =
        Except.error "unknown token when expecting an expression" ∧
    (ParseBinOpRHS 9 0 (ExprAST.NumberExprAst 1) (mainInit "+ $")).1 =
        Except.error "unknown token when expecting an expression" ∧
    (ParseBinOpRHS 9 0 (ExprAST.NumberExprAst 1) (mainInit "+ 2 * $")).1 =
        Except.error "unknown token when expecting an expression" ∧
    (ParseDefinition 9 (mainInit "def 1")).1 =
        Except.error "Expected function name in prototype" ∧
    (ParseDefinition 9 (mainInit "def f() $")).1 =
        Except.error "unknown token when expecting an expression" ∧
    (ParseExtern 9 (mainInit "extern 1")).1 =
        Except.error "Expected function name in prototype" ∧
    (ParseTopLevelExpr 9 (mainInit "$")).1 =
        Except.error "unknown token when expecting an expression" := by
  refine ⟨?_, ?_, ?_, ?_, ?_, ?_, ?_, ?_, ?_, ?_, ?_, ?_⟩
  · exact congrArg Prod.fst ((C5_failure_propagation 8 (mainInit "($")
      "unknown token when expecting an expression").1
      (ParseExpression 8 (getNextToken (mainInit "($"))).2 (by rfl))
  · exact congrArg Prod.fst ((C5_failure_propagation 8 (mainInit "($")
      "unknown token when expecting an expression").2.1
      (ParseParenExpr 8 (mainInit "($")).2 (by decide) (by rfl))
  · exact congrArg Prod.fst ((C5_failure_propagation 8 (mainInit "foo($")
      "unknown token when expecting an expression").2.2.1
      (ParseIdentifierExpr 8 (mainInit "foo($")).2 (by decide) (by rfl))
  · exact congrArg Prod.fst ((C5_failure_propagation 8 (mainInit "$")
      "unknown token when expecting an expression").2.2.2.1
      (ParsePrimary 8 (mainInit "$")).2 (by rfl))
  · exact congrArg Prod.fst ((C5_failure_propagation 8 (mainInit "$")
      "unknown token when expecting an expression").2.2.2.2.1 []
      (ParseExpression 8 (mainInit "$")).2 (by rfl))
  · exact congrArg Prod.fst ((C5_failure_propagation 8 (mainInit "foo($")
      "unknown token when expecting an expression").2.2.2.2.2.1
      (parseCallArgs 8 (getNextToken (getNextToken (mainInit "foo($"))) []).2
      (by decide) (by decide) (by rfl))
  · exact congrArg Prod.fst ((C5_failure_propagation 8 (mainInit "+ $")
      "unknown token when expecting an expression").2.2.2.2.2.2.1 0
      (ExprAST.NumberExprAst 1) '+'
      (ParsePrimary 8 (getNextToken (GetTokPrecedence (mainInit "+ $")).2)).2
      (by decide) (by decide) (by rfl))
  · exact congrArg Prod.fst ((C5_failure_propagation 8 (mainInit "+ 2 * $")
      "unknown token when expecting an expression").2.2.2.2.2.2.2.1 0
      (ExprAST.NumberExprAst 1) '+' (ExprAST.NumberExprAst 2)
      (ParsePrimary 8 (getNextToken (GetTokPrecedence (mainInit "+ 2 * $")).2)).2
      (ParseBinOpRHS 8 ((GetTokPrecedence (mainInit "+ 2 * $")).1 + 1)
        (ExprAST.NumberExprAst 2)
        (GetTokPrecedence (ParsePrimary 8 (getNextToken
          (GetTokPrecedence (mainInit "+ 2 * $")).2)).2).2).2
      (by decide) (by decide) (by rfl) (by decide) (by rfl))
  · exact congrArg Prod.fst ((C5_failure_propagation 9 (mainInit "def 1")
      "Expected function name in prototype").2.2.2.2.2.2.2.2.1
      (ParsePrototype 9 (getNextToken (mainInit "def 1"))).2 (by rfl))
  · exact congrArg Prod.fst ((C5_failure_propagation 9 (mainInit "def f() $")
      "unknown token when expecting an expression").2.2.2.2.2.2.2.2.2.1
      ⟨"f", []⟩ (ParsePrototype 9 (getNextToken (mainInit "def f() $"))).2
      (ParseExpression 9 (ParsePrototype 9 (getNextToken (mainInit "def f() $"))).2).2
      (by rfl) (by rfl))
  · exact congrArg Prod.fst ((C5_failure_propagation 9 (mainInit "extern 1")
      "Expected function name in prototype").2.2.2.2.2.2.2.2.2.2.1
      (ParsePrototype 9 (getNextToken (mainInit "extern 1"))).2 (by rfl))
  · exact congrArg Prod.fst ((C5_failure_propagation 9 (mainInit "$")
      "unknown token when expecting an expression").2.2.2.2.2.2.2.2.2.2.2
      (ParseExpression 9 (mainInit "$")).2 (by rfl))

end Kale
